import Mathlib

/-!
Verification development for the tlox tree-walking interpreter.

The Rust sources are embedded shallowly: each Rust function that a claim
depends on is translated into an executable Lean definition over explicit
state (heaps of environment frames, objects and classes replace the
`Rc<RefCell<...>>` graph; arena handles are replaced by direct tree
nesting; `f64` numbers are modelled as rationals).  Recursive runtime
procedures take a fuel argument; running out of fuel is reported as a
distinguished outcome so that genuine results are never confused with
model-level truncation.
-/

namespace Tlox

/-- Token kinds, from `src/lexer/token.rs` (`TokenType`). -/
inductive TokType where
  | leftParen | rightParen | leftBrace | rightBrace
  | comma | dot | minus | plus | semiColon | colon | questionMark | slash | star
  | bang | bangEqual | equal | equalEqual
  | greater | greaterEqual | less | lessEqual
  | identifier | strTok | number
  | andKw | classKw | elseKw | falseKw | funKw | forKw | ifKw | nilKw
  | orKw | printKw | returnKw | superKw | thisKw | trueKw | varKw | whileKw
  | eof
deriving DecidableEq, Repr

/-- Tokens as produced by `Scanner` (`src/lexer/scanner.rs`): kind, lexeme,
line, and the per-source sequence number that gives a token its identity
(`current_token_number`). -/
structure Tok where
  typ : TokType
  lexeme : String
  line : Nat
  seq : Nat
deriving DecidableEq, Repr

/-- The literal payloads the parser stores inside `Expr::Literal`. The Rust
parser reuses the full runtime `Literal` enum but only ever constructs the
`Str`, `Number`, `Bool` and `Nothing` variants in the AST; those variants are
split out here so the AST does not recurse through runtime values. -/
inductive PrimLit where
  | str (s : String)
  | num (n : Rat)
  | bool (b : Bool)
  | nothing
deriving DecidableEq, Repr

mutual
/-- Expressions, from `src/parser/expression.rs` (`Expr`); arena handles
(`ExprRef`/`StmtRef`) are modelled by direct nesting. -/
inductive LExpr where
  | lit (v : PrimLit)
  | varE (name : Tok)
  | assign (name : Tok) (value : LExpr)
  | binary (lhs : LExpr) (op : Tok) (rhs : LExpr)
  | logical (lhs : LExpr) (op : Tok) (rhs : LExpr)
  | ternary (cond : LExpr) (thenE : LExpr) (elseE : LExpr)
  | grouping (inner : LExpr)
  | unary (op : Tok) (operand : LExpr)
  | call (callee : LExpr) (paren : Tok) (args : List LExpr)
  | lambda (params : List Tok) (body : List LStmt)
  | getE (obj : LExpr) (name : Tok)
  | setE (obj : LExpr) (name : Tok) (value : LExpr)
  | thisE (tok : Tok)
  | superE (kw : Tok) (method : Tok)
deriving Repr

/-- Statements, from `src/parser/statement.rs` (`Stmt`). -/
inductive LStmt where
  | expression (e : LExpr)
  | print (e : LExpr)
  | varS (name : Tok) (init : LExpr)
  | block (stmts : List LStmt)
  | ifS (cond : LExpr) (thenB : LStmt) (elseB : Option LStmt)
  | whileS (cond : LExpr) (body : LStmt)
  | funDecl (name : Tok) (params : List Tok) (body : List LStmt)
  | getter (name : Tok) (body : List LStmt)
  | ret (kw : Tok) (value : LExpr)
  | classS (name : Tok) (methods : List LStmt) (superC : Option LExpr)
deriving Repr
end

mutual
/-- Runtime values, from `src/lexer/literal.rs` (`Literal`).  `Rc<RefCell<_>>`
references become natural-number addresses into the class/object heaps. -/
inductive Literal where
  | str (s : String)
  | num (n : Rat)
  | bool (b : Bool)
  | fnLit (f : FunctionV)
  | getLit (f : FunctionV)
  | classLit (c : ClassV)
  | instLit (i : InstanceV)
  | nothing
deriving Repr

/-- Runtime function objects, from `src/interpreter/function.rs`
(`Function`); `closure` is an address into the environment heap. -/
inductive FunctionV where
  | mk (arity : Nat) (name : Option Tok) (params : List Tok)
       (body : List LStmt) (closure : Nat) (isInit : Bool)
deriving Repr

/-- Runtime class objects, from `src/interpreter/class.rs` (`Class`);
`superClass` is an address into the class heap. -/
inductive ClassV where
  | mk (name : String) (methods : List (String × Literal)) (superClass : Option Nat)
deriving Repr

/-- Instance references, from `src/lexer/literal.rs` (`Instance`); both
variants hold heap addresses (class heap for `Static`, object heap for
`Dynamic`). -/
inductive InstanceV where
  | staticI (cls : Nat)
  | dynamic (obj : Nat)
deriving Repr
end

/-- Runtime errors, from `src/error/report.rs` (`RuntimeError`): the offending
token plus a message. -/
structure RuntimeError where
  token : Tok
  message : String
deriving Repr

/-- Outcomes of running embedded Rust code: a propagated `RuntimeError`
(`Err` of `RuntimeResult`), a Rust panic (such as an out-of-bounds slice
index), or fuel exhaustion of the model. -/
inductive RunErr where
  | rt (err : RuntimeError)
  | panicked (msg : String)
  | noFuel
deriving Repr

/-- `error` / `report` from `src/error/report.rs`: diagnostics are formatted
as `[line N] Error at 'lexeme': message` (or `at end` for `Eof`). -/
def reportError (token : Tok) (message : String) : String :=
  match token.typ with
  | .eof => "[line " ++ toString token.line ++ "] Error at end: " ++ message
  | _ => "[line " ++ toString token.line ++ "] Error at '" ++ token.lexeme
          ++ "': " ++ message

/-- `HashMap::insert`: replace the binding if the key is present, otherwise
add it. -/
def insertVal (m : List (String × Literal)) (k : String) (v : Literal) :
    List (String × Literal) :=
  match m with
  | [] => [(k, v)]
  | (k', v') :: rest =>
      if k' = k then (k, v) :: rest else (k', v') :: insertVal rest k v

/-- `HashMap::get` on a name-to-value map. -/
def lookupVal (m : List (String × Literal)) (k : String) : Option Literal :=
  match m with
  | [] => none
  | (k', v') :: rest => if k' = k then some v' else lookupVal rest k

/-- One lexical scope frame, from `src/interpreter/environment.rs`
(`Environment`): bindings plus an optional enclosing frame.  The
`Option<Rc<RefCell<Environment>>>` parent becomes an optional heap
address. -/
structure EnvFrame where
  values : List (String × Literal)
  outerScope : Option Nat
deriving Repr

/-- The store of shared environment frames (`Rc<RefCell<Environment>>`
allocations), addressed by position. -/
abbrev EnvHeap := List EnvFrame

/-- Dereference an environment address (`Rc` deref; addresses produced by the
model are always in range, so the default is never reached on them). -/
def heapGet (h : EnvHeap) (a : Nat) : EnvFrame :=
  (h.get? a).getD ⟨[], none⟩

/-- Update the frame at an address in place (`RefCell::borrow_mut`). -/
def heapSet (h : EnvHeap) (a : Nat) (fr : EnvFrame) : EnvHeap :=
  h.set a fr

/-- `Environment::define`: bind unconditionally in the frame at `a`. -/
def envDefine (h : EnvHeap) (a : Nat) (name : String) (v : Literal) : EnvHeap :=
  let fr := heapGet h a
  heapSet h a { fr with values := insertVal fr.values name v }

/-- The message raised by the environment for a missing name. -/
def undefinedVar (name : Tok) : RunErr :=
  .rt ⟨name, "Undefined variable '" ++ name.lexeme ++ "'."⟩

/-- `Environment::get`: check this frame, then recurse into the parent; the
chain walk is fueled. -/
def envGet (h : EnvHeap) (fuel : Nat) (a : Nat) (name : Tok) :
    Except RunErr Literal :=
  match fuel with
  | 0 => .error .noFuel
  | fuel + 1 =>
    match lookupVal (heapGet h a).values name.lexeme with
    | some v => .ok v
    | none =>
      match (heapGet h a).outerScope with
      | some enclosing => envGet h fuel enclosing name
      | none => .error (undefinedVar name)

/-- The loop of `Environment::ancestor`: follow `outer_scope` exactly
`distance` times, failing where the chain ends early. -/
def ancestorWalk (h : EnvHeap) (a : Nat) (name : Tok) :
    Nat → Except RunErr Nat
  | 0 => .ok a
  | d + 1 =>
    match (heapGet h a).outerScope with
    | some e => ancestorWalk h e name d
    | none => .error (undefinedVar name)

/-- `Environment::ancestor`, from `src/interpreter/environment.rs` lines
65-74.  The source first wraps a clone of the current frame in a fresh
`Rc::new(RefCell::new(self.clone()))` — the clone copies this frame's
`values` map while sharing the `outer_scope` pointer — and then follows
`outer_scope` `distance` times starting from that clone.  The fresh
allocation is modelled by appending the cloned frame to the heap; for
`distance = 0` the returned address is therefore the clone, not the frame
the caller started from. -/
def envAncestor (h : EnvHeap) (a : Nat) (name : Tok) (distance : Nat) :
    EnvHeap × Except RunErr Nat :=
  let clone := heapGet h a
  let h' := h ++ [clone]
  (h', ancestorWalk h' h.length name distance)

/-- `Environment::get_at`: resolve the ancestor at `distance`, then look up
only in that frame. -/
def envGetAt (h : EnvHeap) (a : Nat) (name : Tok) (distance : Nat) :
    EnvHeap × Except RunErr Literal :=
  match envAncestor h a name distance with
  | (h', .error e) => (h', .error e)
  | (h', .ok b) =>
    match lookupVal (heapGet h' b).values name.lexeme with
    | some v => (h', .ok v)
    | none => (h', .error (undefinedVar name))

/-- `Environment::assign_at`: resolve the ancestor at `distance` and insert
the binding into that frame's map. -/
def envAssignAt (h : EnvHeap) (a : Nat) (name : Tok) (v : Literal)
    (distance : Nat) : EnvHeap × Except RunErr Unit :=
  match envAncestor h a name distance with
  | (h', .error e) => (h', .error e)
  | (h', .ok b) => (envDefine h' b name.lexeme v, .ok ())

/-- `Environment::assign`: write in the nearest frame of the chain that
already contains the name; fail when none does. -/
def envAssign (h : EnvHeap) (fuel : Nat) (a : Nat) (name : Tok) (v : Literal) :
    EnvHeap × Except RunErr Unit :=
  match fuel with
  | 0 => (h, .error .noFuel)
  | fuel + 1 =>
    if (lookupVal (heapGet h a).values name.lexeme).isSome then
      (envDefine h a name.lexeme v, .ok ())
    else
      match (heapGet h a).outerScope with
      | some enclosing => envAssign h fuel enclosing name v
      | none => (h, .error (undefinedVar name))

/-- Runtime instance objects, from `src/interpreter/object.rs` (`Object`):
a shared class (`Rc<RefCell<Class>>`, here a class-heap address) plus the
dynamically grown field map. -/
structure ObjectV where
  cls : Nat
  fields : List (String × Literal)
deriving Repr

/-- The store of shared `Rc<RefCell<Object>>` allocations. -/
abbrev ObjHeap := List ObjectV

/-- The store of shared `Rc<RefCell<Class>>` allocations. -/
abbrev ClsHeap := List ClassV

/-- Dereference an object address. -/
def objGet (oh : ObjHeap) (a : Nat) : ObjectV :=
  (oh.get? a).getD ⟨0, []⟩

/-- Dereference a class address. -/
def clsGet (ch : ClsHeap) (a : Nat) : ClassV :=
  (ch.get? a).getD ⟨"", [], none⟩

/-- Field accessors for `ClassV`. -/
def ClassV.name : ClassV → String
  | .mk n _ _ => n

def ClassV.methods : ClassV → List (String × Literal)
  | .mk _ m _ => m

def ClassV.superClass : ClassV → Option Nat
  | .mk _ _ s => s

/-- Field accessors for `FunctionV`. -/
def FunctionV.arity : FunctionV → Nat
  | .mk a _ _ _ _ _ => a

def FunctionV.fname : FunctionV → Option Tok
  | .mk _ n _ _ _ _ => n

def FunctionV.params : FunctionV → List Tok
  | .mk _ _ p _ _ _ => p

def FunctionV.body : FunctionV → List LStmt
  | .mk _ _ _ b _ _ => b

def FunctionV.closure : FunctionV → Nat
  | .mk _ _ _ _ c _ => c

def FunctionV.isInit : FunctionV → Bool
  | .mk _ _ _ _ _ i => i

/-- `Class::find_method` (`src/interpreter/class.rs` lines 67-77): look in
this class's table, else recurse into the superclass chain.  The chain walk
is fueled; the interpreter only builds chains whose addresses point to
earlier allocations, so a fuel of `ch.length + 1` never runs out on
reachable states. -/
def findMethod (ch : ClsHeap) : Nat → ClassV → String → Option Literal
  | 0, _, _ => none
  | fuel + 1, c, name =>
    match lookupVal c.methods name with
    | some method => some method
    | none =>
      match c.superClass with
      | some cls => findMethod ch fuel (clsGet ch cls) name
      | none => none

/-- `Class::arity` (`src/interpreter/class.rs` lines 32-37): the arity of the
`init` method when there is one, otherwise 0. -/
def classArity (ch : ClsHeap) (c : ClassV) : Nat :=
  match findMethod ch (ch.length + 1) c "init" with
  | some (.fnLit init) => init.arity
  | _ => 0

mutual
/-- Structural equality on expressions: derived `PartialEq` on `Expr`, with
arena handles compared as the subtrees they denote. -/
def beqLExpr : LExpr → LExpr → Bool
  | .lit a, .lit b => a == b
  | .varE a, .varE b => a == b
  | .assign n1 v1, .assign n2 v2 => n1 == n2 && beqLExpr v1 v2
  | .binary l1 o1 r1, .binary l2 o2 r2 => beqLExpr l1 l2 && o1 == o2 && beqLExpr r1 r2
  | .logical l1 o1 r1, .logical l2 o2 r2 => beqLExpr l1 l2 && o1 == o2 && beqLExpr r1 r2
  | .ternary c1 t1 e1, .ternary c2 t2 e2 => beqLExpr c1 c2 && beqLExpr t1 t2 && beqLExpr e1 e2
  | .grouping a, .grouping b => beqLExpr a b
  | .unary o1 a, .unary o2 b => o1 == o2 && beqLExpr a b
  | .call c1 p1 a1, .call c2 p2 a2 => beqLExpr c1 c2 && p1 == p2 && beqLExprList a1 a2
  | .lambda p1 b1, .lambda p2 b2 => p1 == p2 && beqLStmtList b1 b2
  | .getE o1 n1, .getE o2 n2 => beqLExpr o1 o2 && n1 == n2
  | .setE o1 n1 v1, .setE o2 n2 v2 => beqLExpr o1 o2 && n1 == n2 && beqLExpr v1 v2
  | .thisE a, .thisE b => a == b
  | .superE k1 m1, .superE k2 m2 => k1 == k2 && m1 == m2
  | _, _ => false

def beqLExprList : List LExpr → List LExpr → Bool
  | [], [] => true
  | a :: as', b :: bs => beqLExpr a b && beqLExprList as' bs
  | _, _ => false

/-- Structural equality on statements (derived `PartialEq` on `Stmt`). -/
def beqLStmt : LStmt → LStmt → Bool
  | .expression a, .expression b => beqLExpr a b
  | .print a, .print b => beqLExpr a b
  | .varS n1 i1, .varS n2 i2 => n1 == n2 && beqLExpr i1 i2
  | .block a, .block b => beqLStmtList a b
  | .ifS c1 t1 e1, .ifS c2 t2 e2 => beqLExpr c1 c2 && beqLStmt t1 t2 && beqOptStmt e1 e2
  | .whileS c1 b1, .whileS c2 b2 => beqLExpr c1 c2 && beqLStmt b1 b2
  | .funDecl n1 p1 b1, .funDecl n2 p2 b2 => n1 == n2 && p1 == p2 && beqLStmtList b1 b2
  | .getter n1 b1, .getter n2 b2 => n1 == n2 && beqLStmtList b1 b2
  | .ret k1 v1, .ret k2 v2 => k1 == k2 && beqLExpr v1 v2
  | .classS n1 m1 s1, .classS n2 m2 s2 =>
      n1 == n2 && beqLStmtList m1 m2 && beqOptExpr s1 s2
  | _, _ => false

def beqLStmtList : List LStmt → List LStmt → Bool
  | [], [] => true
  | a :: as', b :: bs => beqLStmt a b && beqLStmtList as' bs
  | _, _ => false

def beqOptStmt : Option LStmt → Option LStmt → Bool
  | none, none => true
  | some a, some b => beqLStmt a b
  | _, _ => false

def beqOptExpr : Option LExpr → Option LExpr → Bool
  | none, none => true
  | some a, some b => beqLExpr a b
  | _, _ => false
end

mutual
/-- Derived `PartialEq` on `Literal`, as invoked by `Interpreter::is_equal`
(`left == right`).  In Rust an `Rc<RefCell<T>>` compares by dereferencing
and comparing the pointed-to values, so functions, classes and instances
are compared through their content, following shared references; the
recursion is fueled because reference cycles would make the Rust
comparison itself recurse forever. -/
def rustEqLit (eh : EnvHeap) (oh : ObjHeap) (ch : ClsHeap) :
    Nat → Literal → Literal → Option Bool
  | 0, _, _ => none
  | fuel + 1, a, b =>
    match a, b with
    | .str s1, .str s2 => some (s1 == s2)
    | .num n1, .num n2 => some (n1 == n2)
    | .bool b1, .bool b2 => some (b1 == b2)
    | .nothing, .nothing => some true
    | .fnLit f1, .fnLit f2 => rustEqFun eh oh ch fuel f1 f2
    | .getLit f1, .getLit f2 => rustEqFun eh oh ch fuel f1 f2
    | .classLit c1, .classLit c2 => rustEqClass eh oh ch fuel c1 c2
    | .instLit i1, .instLit i2 => rustEqInst eh oh ch fuel i1 i2
    | _, _ => some false

def rustEqFun (eh : EnvHeap) (oh : ObjHeap) (ch : ClsHeap) :
    Nat → FunctionV → FunctionV → Option Bool
  | 0, _, _ => none
  | fuel + 1, f1, f2 => do
    let c ← rustEqEnvAddr eh oh ch fuel f1.closure f2.closure
    pure (f1.arity == f2.arity && f1.fname == f2.fname && f1.params == f2.params
      && beqLStmtList f1.body f2.body && c && f1.isInit == f2.isInit)

/-- Environments compare by value through the `Rc`: the bindings map and,
recursively, the parent chain. -/
def rustEqEnvAddr (eh : EnvHeap) (oh : ObjHeap) (ch : ClsHeap) :
    Nat → Nat → Nat → Option Bool
  | 0, _, _ => none
  | fuel + 1, a1, a2 => do
    let v ← mapEqLit eh oh ch fuel (heapGet eh a1).values (heapGet eh a2).values
    match (heapGet eh a1).outerScope, (heapGet eh a2).outerScope with
    | none, none => pure v
    | some p1, some p2 => do
      let p ← rustEqEnvAddr eh oh ch fuel p1 p2
      pure (v && p)
    | _, _ => pure false

def rustEqClass (eh : EnvHeap) (oh : ObjHeap) (ch : ClsHeap) :
    Nat → ClassV → ClassV → Option Bool
  | 0, _, _ => none
  | fuel + 1, c1, c2 => do
    let m ← mapEqLit eh oh ch fuel c1.methods c2.methods
    match c1.superClass, c2.superClass with
    | none, none => pure (c1.name == c2.name && m)
    | some s1, some s2 => do
      let s ← rustEqClass eh oh ch fuel (clsGet ch s1) (clsGet ch s2)
      pure (c1.name == c2.name && m && s)
    | _, _ => pure false

def rustEqInst (eh : EnvHeap) (oh : ObjHeap) (ch : ClsHeap) :
    Nat → InstanceV → InstanceV → Option Bool
  | 0, _, _ => none
  | fuel + 1, i1, i2 =>
    match i1, i2 with
    | .staticI a1, .staticI a2 => rustEqClass eh oh ch fuel (clsGet ch a1) (clsGet ch a2)
    | .dynamic a1, .dynamic a2 => do
      let c ← rustEqClass eh oh ch fuel (clsGet ch (objGet oh a1).cls) (clsGet ch (objGet oh a2).cls)
      let f ← mapEqLit eh oh ch fuel (objGet oh a1).fields (objGet oh a2).fields
      pure (c && f)
    | _, _ => some false

/-- `HashMap` equality: same size, and every key of the first maps to an
equal value in the second (the maps built by `insertVal` have no duplicate
keys, so this is the derived `PartialEq` on `HashMap`). -/
def mapEqLit (eh : EnvHeap) (oh : ObjHeap) (ch : ClsHeap) :
    Nat → List (String × Literal) → List (String × Literal) → Option Bool
  | 0, _, _ => none
  | fuel + 1, m1, m2 =>
    match m1 with
    | [] => some (m2.length == 0)
    | (k, v) :: rest =>
      match lookupVal m2 k with
      | none => some false
      | some v' => do
        let e ← rustEqLit eh oh ch fuel v v'
        let r ← mapEqLit eh oh ch fuel rest m2
        pure (m1.length == m2.length && e && r)
end

/-- Interpreter state, from `src/interpreter/interpreter.rs` (`Interpreter`),
together with the stores backing the shared `Rc<RefCell<...>>` values and
the text printed so far. -/
structure InterpState where
  envHeap : EnvHeap
  objHeap : ObjHeap
  clsHeap : ClsHeap
  globals : Nat
  environment : Nat
  inInit : Bool
  locals : List (Tok × Nat)
  returnValue : Literal
  output : List String
deriving Repr

/-- `Interpreter::new`: a fresh globals frame, with the current environment
aliasing it, an empty return slot and the resolver's locals map. -/
def interpNew (locals : List (Tok × Nat)) : InterpState :=
  { envHeap := [⟨[], none⟩], objHeap := [], clsHeap := [], globals := 0,
    environment := 0, inInit := false, locals := locals,
    returnValue := .nothing, output := [] }

/-- `HashMap::get` on the resolver's locals map, keyed by token identity. -/
def localsGet (locals : List (Tok × Nat)) (t : Tok) : Option Nat :=
  match locals with
  | [] => none
  | (k, d) :: rest => if k = t then some d else localsGet rest t

/-- `self.return_value != Literal::Nothing`, the pending-return guard. -/
def isNothingLit : Literal → Bool
  | .nothing => true
  | _ => false

/-- Embed a parsed literal into the runtime value it denotes (the Rust AST
stores the runtime `Literal` enum directly). -/
def primToLit : PrimLit → Literal
  | .str s => .str s
  | .num n => .num n
  | .bool b => .bool b
  | .nothing => .nothing

/-- `Interpreter::is_truthy`: `nil` and `false` are false, all else true. -/
def isTruthy : Literal → Bool
  | .nothing => false
  | .bool b => b
  | _ => true

/-- `Display` for numbers (the model prints the rational value directly). -/
def numFormat (n : Rat) : String := toString n

/-- `Display for Function`: `<fn name>` or `<lambda>`. -/
def formatFun (f : FunctionV) : String :=
  match f.fname with
  | some n => "<fn " ++ n.lexeme ++ ">"
  | none => "<lambda>"

/-- `Display for Literal` (with `Class` and `Object` displays inlined). -/
def formatLit (oh : ObjHeap) (ch : ClsHeap) : Literal → String
  | .str s => "\"" ++ s ++ "\""
  | .num n => numFormat n
  | .bool b => if b then "true" else "false"
  | .fnLit f => formatFun f
  | .getLit f => "getter " ++ formatFun f
  | .classLit c => "<class " ++ c.name ++ ">"
  | .instLit (.staticI a) => "<class " ++ (clsGet ch a).name ++ ">"
  | .instLit (.dynamic a) => "<object " ++ (clsGet ch (objGet oh a).cls).name ++ ">"
  | .nothing => "nil"

/-- The string-keyed `get_at` used by `interpreter.rs` and `function.rs`
(`environment.borrow().get_at(&lexeme, d)` yielding an `Option`); the
temporary clone allocated by `ancestor` stays behind in the heap. -/
def envGetAtOpt (h : EnvHeap) (a : Nat) (lexeme : String) (distance : Nat) :
    EnvHeap × Option Literal :=
  match envGetAt h a ⟨.identifier, lexeme, 0, 0⟩ distance with
  | (h', .ok v) => (h', some v)
  | (h', .error _) => (h', none)

/-- `Environment::get` as the `Option`-yielding lookup used against the
globals frame by `visit_var_expr` / `visit_this_expr`. -/
def envGetOpt (h : EnvHeap) (a : Nat) (lexeme : String) : Option Literal :=
  match envGet h (h.length + 1) a ⟨.identifier, lexeme, 0, 0⟩ with
  | .ok v => some v
  | .error _ => none

/-- `Function::bind` (`src/interpreter/function.rs` lines 65-79): allocate a
new frame defining `this` on top of the captured closure and return a new
function value over the same parameters and body (tagged `Get` when
`is_getter`; `object.rs` calls it for ordinary method binding, which yields
a `Fun`). -/
def functionBind (eh : EnvHeap) (f : FunctionV) (inst : InstanceV)
    (isGetter : Bool) : EnvHeap × Literal :=
  let envAddr := eh.length
  let eh' := eh ++ [⟨[("this", Literal.instLit inst)], some f.closure⟩]
  let g : FunctionV := .mk f.params.length f.fname f.params f.body envAddr f.isInit
  (eh', if isGetter then .getLit g else .fnLit g)

/-- `Interpreter::calculate_number` (`-`, `*`, `/` on two numbers, division
by zero raising a runtime error; source message typos preserved). -/
def calculateNumber (l : Literal) (op : Tok) (r : Literal) :
    Except RunErr Literal :=
  match l, r with
  | .num a, .num b =>
    match op.typ with
    | .minus => .ok (.num (a - b))
    | .star => .ok (.num (a * b))
    | .slash =>
      if b = 0 then .error (.rt ⟨op, "Cannot divide by zero."⟩)
      else .ok (.num (a / b))
    | _ => .error (.rt ⟨op, "Uknown operator for numbers."⟩)
  | _, _ => .error (.rt ⟨op, "Operand must be a number"⟩)

/-- `Interpreter::calculate_addition`: number+number adds (the source writes
`r + l`), a string on either side concatenates with numeric formatting, and
anything else is an error. -/
def calculateAddition (l : Literal) (op : Tok) (r : Literal) :
    Except RunErr Literal :=
  match l with
  | .num a =>
    match r with
    | .num b => .ok (.num (b + a))
    | .str s => .ok (.str (numFormat a ++ s))
    | _ => .error (.rt ⟨op, "Cannot add operands."⟩)
  | .str s =>
    match r with
    | .num b => .ok (.str (s ++ numFormat b))
    | .str t => .ok (.str (s ++ t))
    | _ => .error (.rt ⟨op, "Cannot add operands."⟩)
  | _ => .error (.rt ⟨op, "Cannot add operands."⟩)

/-- `Interpreter::calculate_bool`: the four comparisons on two numbers. -/
def calculateBool (l : Literal) (op : Tok) (r : Literal) :
    Except RunErr Literal :=
  match l, r with
  | .num a, .num b =>
    match op.typ with
    | .greater => .ok (.bool (decide (a > b)))
    | .greaterEqual => .ok (.bool (decide (a ≥ b)))
    | .less => .ok (.bool (decide (a < b)))
    | .lessEqual => .ok (.bool (decide (a ≤ b)))
    | _ => .error (.rt ⟨op, "Uknown operator for numbers."⟩)
  | _, _ => .error (.rt ⟨op, "Cannot compare non-booleans."⟩)

/-- Shared body of `visit_var_expr` and `visit_this_expr`: a name present in
`locals` reads through `get_at` on the current environment at the recorded
depth, all other names read from the globals frame. -/
def varLookup (st : InterpState) (name : Tok) :
    InterpState × Except RunErr Literal :=
  match localsGet st.locals name with
  | some d =>
    match envGetAtOpt st.envHeap st.environment name.lexeme d with
    | (h', some v) => ({ st with envHeap := h' }, .ok v)
    | (h', none) => ({ st with envHeap := h' }, .error (undefinedVar name))
  | none =>
    match envGetOpt st.envHeap st.globals name.lexeme with
    | some v => (st, .ok v)
    | none => (st, .error (undefinedVar name))

/-- `Object::get` (`src/interpreter/object.rs` lines 25-37): fields first,
then the class's method table.  Only a table entry matching `Literal::Fun`
is bound; an entry tagged `Get` (a getter) fails the pattern and falls
through to the undefined-property error.  Binding wraps a CLONE of the
object in a fresh `Rc` (`Rc::new(RefCell::new(self.clone()))`), so the
bound method's `this` is a copy of the receiver, not the receiver. -/
def objectGet (st : InterpState) (oaddr : Nat) (name : Tok) :
    InterpState × Except RunErr Literal :=
  let ob := objGet st.objHeap oaddr
  match lookupVal ob.fields name.lexeme with
  | some v => (st, .ok v)
  | none =>
    match findMethod st.clsHeap (st.clsHeap.length + 1)
        (clsGet st.clsHeap ob.cls) name.lexeme with
    | some (.fnLit method) =>
      let cloneAddr := st.objHeap.length
      let st1 := { st with objHeap := st.objHeap ++ [ob] }
      let (h', bound) := functionBind st1.envHeap method (.dynamic cloneAddr) false
      ({ st1 with envHeap := h' }, .ok bound)
    | _ => (st, .error (.rt ⟨name, "Undefined property '" ++ name.lexeme ++ "'."⟩))

/-- `Class::get` (`src/interpreter/class.rs` lines 57-65): a found `Fun`
method is bound to a fresh clone of the class as a static receiver. -/
def classGetMember (st : InterpState) (c : ClassV) (name : Tok) :
    InterpState × Except RunErr Literal :=
  match findMethod st.clsHeap (st.clsHeap.length + 1) c name.lexeme with
  | some (.fnLit method) =>
    let caddr := st.clsHeap.length
    let st1 := { st with clsHeap := st.clsHeap ++ [c] }
    let (h', bound) := functionBind st1.envHeap method (.staticI caddr) false
    ({ st1 with envHeap := h' }, .ok bound)
  | _ => (st, .error (.rt ⟨name, "Undefined property '" ++ name.lexeme ++ "'."⟩))

/-- The parameter-binding loop of `Function::call` (lines 49-51): for each
`i` below the arity bind `params[i]` to `args[i]`; indexing `args[i]` with
fewer arguments than the arity is a Rust panic, and surplus arguments are
silently ignored. -/
def bindParams (params : List Tok) (args : List Literal) (arity : Nat) :
    Except String (List (String × Literal)) :=
  (List.range arity).foldlM
    (fun acc i =>
      match params.get? i, args.get? i with
      | some p, some v => .ok (insertVal acc p.lexeme v)
      | _, _ => .error "index out of bounds")
    []

/-- The method-table construction inside `Interpreter::visit_class_stmt`
(lines 257-279): `Stmt::Function` members become `Fun` entries flagged as
initializers exactly when the method's own lexeme is `init`; `Stmt::Getter`
members become `Get` entries with no parameters; both capture the current
environment. -/
def buildMethodTable (env : Nat) : List LStmt → List (String × Literal) →
    List (String × Literal)
  | [], acc => acc
  | .funDecl mname mparams mbody :: rest, acc =>
    buildMethodTable env rest (insertVal acc mname.lexeme
      (.fnLit (.mk mparams.length (some mname) mparams mbody env
        (mname.lexeme == "init"))))
  | .getter gname gbody :: rest, acc =>
    buildMethodTable env rest (insertVal acc gname.lexeme
      (.getLit (.mk 0 (some gname) [] gbody env false)))
  | _ :: rest, acc => buildMethodTable env rest acc

mutual
/-- `Interpreter::visit_stmt` with the per-statement visitors of
`src/interpreter/interpreter.rs` inlined; the early pending-return guards
appear exactly where the source has them. -/
def visitStmt (fuel : Nat) (st : InterpState) (s : LStmt) :
    InterpState × Except RunErr Unit :=
  match fuel with
  | 0 => (st, .error .noFuel)
  | fuel + 1 =>
    match s with
    | .expression e =>
      if ¬ isNothingLit st.returnValue then (st, .ok ()) else
      match visitExpr fuel st e with
      | (st', .ok _) => (st', .ok ())
      | (st', .error err) => (st', .error err)
    | .print e =>
      if ¬ isNothingLit st.returnValue then (st, .ok ()) else
      match visitExpr fuel st e with
      | (st', .ok v) =>
        ({ st' with output := st'.output ++ [formatLit st'.objHeap st'.clsHeap v] }, .ok ())
      | (st', .error err) => (st', .error err)
    | .varS name init =>
      if ¬ isNothingLit st.returnValue then (st, .ok ()) else
      let run : InterpState × Except RunErr Literal :=
        match init with
        | .lit .nothing => (st, .ok .nothing)
        | _ => visitExpr fuel st init
      match run with
      | (st', .ok v) =>
        ({ st' with envHeap := envDefine st'.envHeap st'.environment name.lexeme v }, .ok ())
      | (st', .error err) => (st', .error err)
    | .block stmts => visitBlockStmt fuel st stmts none
    | .ifS cond thenB elseB =>
      if ¬ isNothingLit st.returnValue then (st, .ok ()) else
      match visitExpr fuel st cond with
      | (st', .error err) => (st', .error err)
      | (st', .ok v) =>
        if isTruthy v then visitStmt fuel st' thenB
        else
          match elseB with
          | some b => visitStmt fuel st' b
          | none => (st', .ok ())
    | .whileS cond body =>
      match visitExpr fuel st cond with
      | (st', .error err) => (st', .error err)
      | (st', .ok v) => whileLoop fuel st' cond body v
    | .funDecl name params body =>
      let f : FunctionV := .mk params.length (some name) params body st.environment false
      ({ st with envHeap := envDefine st.envHeap st.environment name.lexeme (.fnLit f) },
        .ok ())
    | .getter name _ =>
      (st, .error (.rt ⟨name, name.lexeme ++ " getter require a class."⟩))
    | .ret _ value =>
      if st.inInit then
        match envGetAtOpt st.envHeap st.environment "this" 0 with
        | (h', v) => ({ st with envHeap := h', returnValue := v.getD .nothing }, .ok ())
      else
        let run : InterpState × Except RunErr Literal :=
          match value with
          | .lit .nothing => (st, .ok .nothing)
          | _ => visitExpr fuel st value
        match run with
        | (st', .ok v) => ({ st' with returnValue := v }, .ok ())
        | (st', .error err) => (st', .error err)
    | .classS name methods superC => visitClassBody fuel st name methods superC

/-- `Interpreter::visit_class_stmt` (lines 224-290): evaluate the superclass
(which must be a class), define the class name as nil, push a frame binding
`super` when a superclass is present (re-evaluating the superclass
expression; a failure here returns through `?` without popping), build the
method table capturing the current environment, pop the `super` frame, and
`assign` the finished class value to its name. -/
def visitClassBody (fuel : Nat) (st : InterpState) (name : Tok)
    (methods : List LStmt) (superC : Option LExpr) :
    InterpState × Except RunErr Unit :=
  match fuel with
  | 0 => (st, .error .noFuel)
  | fuel + 1 =>
    let step1 : InterpState × Except RunErr (Option Nat) :=
      match superC with
      | some e =>
        match visitExpr fuel st e with
        | (st', .ok (.classLit c)) =>
          ({ st' with clsHeap := st'.clsHeap ++ [c] }, .ok (some st'.clsHeap.length))
        | (st', .ok _) => (st', .error (.rt ⟨name, "Superclass must be a class."⟩))
        | (st', .error err) => (st', .error err)
      | none => (st, .ok none)
    match step1 with
    | (st1, .error err) => (st1, .error err)
    | (st1, .ok parentAddr) =>
      let st2 := { st1 with
        envHeap := envDefine st1.envHeap st1.environment name.lexeme .nothing }
      let step2 : InterpState × Except RunErr Unit :=
        match superC with
        | some e =>
          let newEnv := st2.envHeap.length
          let st3 := { st2 with
            envHeap := st2.envHeap ++ [⟨[], some st2.environment⟩],
            environment := newEnv }
          match visitExpr fuel st3 e with
          | (st4, .ok parent) =>
            ({ st4 with envHeap := envDefine st4.envHeap st4.environment "super" parent },
              .ok ())
          | (st4, .error err) => (st4, .error err)
        | none => (st2, .ok ())
      match step2 with
      | (st5, .error err) => (st5, .error err)
      | (st5, .ok _) =>
        let table := buildMethodTable st5.environment methods []
        let classVal : Literal := .classLit ⟨name.lexeme, table, parentAddr⟩
        let st6 :=
          match superC with
          | some _ =>
            { st5 with environment :=
                ((heapGet st5.envHeap st5.environment).outerScope).getD st5.globals }
          | none => st5
        match envAssign st6.envHeap (st6.envHeap.length + 1) st6.environment name classVal with
        | (h', r) => ({ st6 with envHeap := h' }, r)

/-- The statement loop shared by `visit_block_stmt`: stop on the first error
or as soon as a return is pending. -/
def execStmts (fuel : Nat) (st : InterpState) (stmts : List LStmt) :
    InterpState × Except RunErr Unit :=
  match stmts with
  | [] => (st, .ok ())
  | s :: rest =>
    match fuel with
    | 0 => (st, .error .noFuel)
    | fuel + 1 =>
      match visitStmt fuel st s with
      | (st', .error err) => (st', .error err)
      | (st', .ok _) =>
        if ¬ isNothingLit st'.returnValue then (st', .ok ())
        else execStmts fuel st' rest

/-- `Interpreter::visit_block_stmt` (lines 116-145): unless a return is
already pending, install a fresh frame (the supplied one for calls, or a new
child of the current frame), run the statements, and restore the previous
environment on every exit path — normal completion, pending return, and
error. -/
def visitBlockStmt (fuel : Nat) (st : InterpState) (stmts : List LStmt)
    (environment : Option EnvFrame) : InterpState × Except RunErr Unit :=
  match fuel with
  | 0 => (st, .error .noFuel)
  | fuel + 1 =>
    if ¬ isNothingLit st.returnValue then (st, .ok ()) else
    let previous := st.environment
    let newAddr := st.envHeap.length
    let fr : EnvFrame :=
      match environment with
      | some env => env
      | none => ⟨[], some st.environment⟩
    let st1 := { st with envHeap := st.envHeap ++ [fr], environment := newAddr }
    match execStmts fuel st1 stmts with
    | (st2, r) => ({ st2 with environment := previous }, r)

/-- The `while` re-evaluation loop of `visit_while_stmt` (lines 167-182). -/
def whileLoop (fuel : Nat) (st : InterpState) (cond : LExpr) (body : LStmt)
    (v : Literal) : InterpState × Except RunErr Unit :=
  match fuel with
  | 0 => (st, .error .noFuel)
  | fuel + 1 =>
    if isTruthy v then
      match visitStmt fuel st body with
      | (st', .error err) => (st', .error err)
      | (st', .ok _) =>
        if ¬ isNothingLit st'.returnValue then (st', .ok ())
        else
          match visitExpr fuel st' cond with
          | (st2, .error err) => (st2, .error err)
          | (st2, .ok v') => whileLoop fuel st2 cond body v'
    else (st, .ok ())

/-- Left-to-right argument evaluation in `visit_call_expr`. -/
def evalArgs (fuel : Nat) (st : InterpState) (args : List LExpr) :
    InterpState × Except RunErr (List Literal) :=
  match args with
  | [] => (st, .ok [])
  | a :: rest =>
    match fuel with
    | 0 => (st, .error .noFuel)
    | fuel + 1 =>
      match visitExpr fuel st a with
      | (st', .error err) => (st', .error err)
      | (st', .ok v) =>
        match evalArgs fuel st' rest with
        | (st2, .ok vs) => (st2, .ok (v :: vs))
        | (st2, .error err) => (st2, .error err)

/-- `Function::call` (`src/interpreter/function.rs` lines 42-63): bind the
parameters in a frame over the closure (no arity check here — `args[i]`
panics when too few arguments were passed), run the body as a block with
`in_initializer` set from the function, and for initializers return the
`this` of the closure. -/
def functionCall (fuel : Nat) (st : InterpState) (f : FunctionV)
    (args : List Literal) : InterpState × Except RunErr Literal :=
  match fuel with
  | 0 => (st, .error .noFuel)
  | fuel + 1 =>
    match bindParams f.params args f.arity with
    | .error msg => (st, .error (.panicked msg))
    | .ok binds =>
      let env : EnvFrame := ⟨binds, some f.closure⟩
      let saved := st.inInit
      let st1 := { st with inInit := f.isInit }
      match visitBlockStmt fuel st1 f.body (some env) with
      | (st2, .error err) => (st2, .error err)
      | (st2, .ok _) =>
        let st3 := { st2 with inInit := saved }
        if f.isInit then
          match envGetAtOpt st3.envHeap f.closure "this" 0 with
          | (h', some inst) => ({ st3 with envHeap := h' }, .ok inst)
          | (h', none) => ({ st3 with envHeap := h' }, .ok .nothing)
        else (st3, .ok .nothing)

/-- `Class::call` (`src/interpreter/class.rs` lines 39-55): allocate the
instance, and when an `init` method exists bind it to the instance and call
it with the given arguments — with no arity check of its own — finally
returning the instance. -/
def classCall (fuel : Nat) (st : InterpState) (c : ClassV)
    (args : List Literal) : InterpState × Except RunErr Literal :=
  match fuel with
  | 0 => (st, .error .noFuel)
  | fuel + 1 =>
    let caddr := st.clsHeap.length
    let st1 := { st with clsHeap := st.clsHeap ++ [c] }
    let initFunction := findMethod st1.clsHeap (st1.clsHeap.length + 1) c "init"
    let oaddr := st1.objHeap.length
    let st2 := { st1 with objHeap := st1.objHeap ++ [⟨caddr, []⟩] }
    match initFunction with
    | some (.fnLit initF) =>
      match functionBind st2.envHeap initF (.dynamic oaddr) false with
      | (h', .fnLit boundInit) =>
        let st3 := { st2 with envHeap := h' }
        match functionCall fuel st3 boundInit args with
        | (st4, .error err) => (st4, .error err)
        | (st4, .ok _) => (st4, .ok (.instLit (.dynamic oaddr)))
      | (h', _) => ({ st2 with envHeap := h' }, .ok (.instLit (.dynamic oaddr)))
    | _ => (st2, .ok (.instLit (.dynamic oaddr)))

/-- `Interpreter::visit_expr` with the per-expression visitors inlined. -/
def visitExpr (fuel : Nat) (st : InterpState) (e : LExpr) :
    InterpState × Except RunErr Literal :=
  match fuel with
  | 0 => (st, .error .noFuel)
  | fuel + 1 =>
    match e with
    | .lit v => (st, .ok (primToLit v))
    | .varE name => varLookup st name
    | .thisE name => varLookup st name
    | .assign name value =>
      match visitExpr fuel st value with
      | (st', .error err) => (st', .error err)
      | (st', .ok v) =>
        match localsGet st'.locals name with
        | some d =>
          match envAssignAt st'.envHeap st'.environment name v d with
          | (h', .ok _) => ({ st' with envHeap := h' }, .ok v)
          | (h', .error err) => ({ st' with envHeap := h' }, .error err)
        | none =>
          match envAssign st'.envHeap (st'.envHeap.length + 1) st'.globals name v with
          | (h', .ok _) => ({ st' with envHeap := h' }, .ok v)
          | (h', .error err) => ({ st' with envHeap := h' }, .error err)
    | .binary lhs op rhs =>
      match visitExpr fuel st lhs with
      | (st', .error err) => (st', .error err)
      | (st', .ok l) =>
        match visitExpr fuel st' rhs with
        | (st2, .error err) => (st2, .error err)
        | (st2, .ok r) =>
          match op.typ with
          | .minus => (st2, calculateNumber l op r)
          | .slash => (st2, calculateNumber l op r)
          | .star => (st2, calculateNumber l op r)
          | .plus => (st2, calculateAddition l op r)
          | .greater => (st2, calculateBool l op r)
          | .greaterEqual => (st2, calculateBool l op r)
          | .less => (st2, calculateBool l op r)
          | .lessEqual => (st2, calculateBool l op r)
          | .bangEqual =>
            match rustEqLit st2.envHeap st2.objHeap st2.clsHeap fuel l r with
            | some b => (st2, .ok (.bool (!b)))
            | none => (st2, .error .noFuel)
          | .equalEqual =>
            match rustEqLit st2.envHeap st2.objHeap st2.clsHeap fuel l r with
            | some b => (st2, .ok (.bool b))
            | none => (st2, .error .noFuel)
          | .comma => (st2, .ok r)
          | _ => (st2, .error (.rt ⟨op, "Unknown binary operator."⟩))
    | .logical lhs op rhs =>
      match visitExpr fuel st lhs with
      | (st', .error err) => (st', .error err)
      | (st', .ok l) =>
        if op.typ = .orKw then
          if isTruthy l then (st', .ok l) else visitExpr fuel st' rhs
        else
          if ¬ isTruthy l then (st', .ok l) else visitExpr fuel st' rhs
    | .ternary cond thenE elseE =>
      match visitExpr fuel st cond with
      | (st', .error err) => (st', .error err)
      | (st', .ok c) =>
        if isTruthy c then visitExpr fuel st' thenE else visitExpr fuel st' elseE
    | .grouping g => visitExpr fuel st g
    | .unary op operand =>
      match visitExpr fuel st operand with
      | (st', .error err) => (st', .error err)
      | (st', .ok v) =>
        match op.typ with
        | .minus =>
          match v with
          | .num n => (st', .ok (.num (-n)))
          | _ => (st', .error (.rt ⟨op, "Cannot make non-number negative."⟩))
        | .bang => (st', .ok (.bool (!isTruthy v)))
        | _ => (st', .error (.rt ⟨op, "Uknown unary operator."⟩))
    | .call callee paren args =>
      match visitExpr fuel st callee with
      | (st', .error err) => (st', .error err)
      | (st', .ok cv) =>
        match evalArgs fuel st' args with
        | (st2, .error err) => (st2, .error err)
        | (st2, .ok vals) =>
          match cv with
          | .fnLit f =>
            if args.length ≠ f.arity then
              (st2, .error (.rt ⟨paren, "Wrong number of arguments."⟩))
            else
              match functionCall fuel st2 f vals with
              | (st3, .error err) => (st3, .error err)
              | (st3, .ok _) =>
                let value := st3.returnValue
                ({ st3 with returnValue := .nothing }, .ok value)
          | .classLit c => classCall fuel st2 c vals
          | _ => (st2, .error (.rt ⟨paren, "Can only call functions and classes."⟩))
    | .lambda params body =>
      (st, .ok (.fnLit (.mk params.length none params body st.environment false)))
    | .getE obj name =>
      match visitExpr fuel st obj with
      | (st', .error err) => (st', .error err)
      | (st', .ok v) =>
        match v with
        | .instLit (.dynamic o) =>
          match objectGet st' o name with
          | (st2, .error err) => (st2, .error err)
          | (st2, .ok result) =>
            match result with
            | .getLit getter =>
              match functionCall fuel st2 getter [] with
              | (st3, .error err) => (st3, .error err)
              | (st3, .ok _) =>
                let value := st3.returnValue
                ({ st3 with returnValue := .nothing }, .ok value)
            | .fnLit f => (st2, .ok (.fnLit f))
            | r => (st2, .ok r)
        | .classLit c => classGetMember st' c name
        | _ => (st', .error (.rt ⟨name, "Only instances have properties."⟩))
    | .setE obj name value =>
      match visitExpr fuel st obj with
      | (st', .error err) => (st', .error err)
      | (st', .ok v) =>
        match v with
        | .instLit (.dynamic o) =>
          match visitExpr fuel st' value with
          | (st2, .error err) => (st2, .error err)
          | (st2, .ok val) =>
            let ob := objGet st2.objHeap o
            ({ st2 with objHeap :=
                st2.objHeap.set o { ob with fields := insertVal ob.fields name.lexeme val } },
              .ok val)
        | _ => (st', .error (.rt ⟨name, "Only instances have properties."⟩))
    | .superE kw method =>
      match localsGet st.locals kw with
      | some d =>
        match envGetAtOpt st.envHeap st.environment "super" d with
        | (h1, superV) =>
          match envGetAtOpt h1 st.environment "this" (d - 1) with
          | (h2, objV) =>
            let st' := { st with envHeap := h2 }
            match superV, objV with
            | some (.classLit c), some (.instLit i) =>
              match findMethod st'.clsHeap (st'.clsHeap.length + 1) c method.lexeme with
              | some (.fnLit f) =>
                match functionBind st'.envHeap f i false with
                | (h3, bound) => ({ st' with envHeap := h3 }, .ok bound)
              | _ =>
                (st', .error (.rt ⟨method, "Undefined property '" ++ method.lexeme ++ "'."⟩))
            | _, _ =>
              (st', .error (.rt ⟨method, "Undefined property '" ++ method.lexeme ++ "'."⟩))
      | none =>
        (st, .error (.rt ⟨method, "Undefined property '" ++ method.lexeme ++ "'."⟩))
end

/-- `Interpreter::run` (lines 39-49): execute the top-level statements in
order; a runtime error is reported (appended to the output here) and the
run continues with the next statement. -/
def interpRun (fuel : Nat) (st : InterpState) (program : List LStmt) :
    InterpState :=
  match program with
  | [] => st
  | s :: rest =>
    match visitStmt fuel st s with
    | (st', .ok _) => interpRun fuel st' rest
    | (st', .error (.rt err)) =>
      interpRun fuel { st' with output := st'.output ++
        [reportError err.token err.message] } rest
    | (st', .error _) => st'

/-- `FunctionType` from `src/parser/resolver.rs`: `Function`, `Method`,
`Initializer` (spelled `initFT` here) and `NotAFunction`. -/
inductive FunctionType where
  | functionFT
  | methodFT
  | initFT
  | notAFunction
deriving DecidableEq, Repr

/-- `ClassType` from `src/parser/resolver.rs`. -/
inductive ClassType where
  | notAClass
  | classCT
  | subClass
deriving DecidableEq, Repr

/-- A resolver scope frame: `HashMap<String, bool>` (declared/defined). -/
abbrev Scope := List (String × Bool)

/-- `HashMap::get` on a scope frame. -/
def scopeGet (s : Scope) (k : String) : Option Bool :=
  match s with
  | [] => none
  | (k', v) :: rest => if k' = k then some v else scopeGet rest k

/-- `HashMap::insert` on a scope frame. -/
def scopeInsert (s : Scope) (k : String) (v : Bool) : Scope :=
  match s with
  | [] => [(k, v)]
  | (k', v') :: rest =>
      if k' = k then (k, v) :: rest else (k', v') :: scopeInsert rest k v

/-- `HashMap::insert` on the locals map (keyed by token identity). -/
def localsInsert (m : List (Tok × Nat)) (k : Tok) (v : Nat) : List (Tok × Nat) :=
  match m with
  | [] => [(k, v)]
  | (k', v') :: rest =>
      if k' = k then (k, v) :: rest else (k', v') :: localsInsert rest k v

/-- Resolver state, from `src/parser/resolver.rs` (`Resolver`): the stack of
scope frames (index 0 is the bottom of the `Vec`, the last element is the
innermost scope), the locals map, and the two context trackers. -/
structure ResolverState where
  scopes : List Scope
  locals : List (Tok × Nat)
  currentFunction : FunctionType
  currentClass : ClassType
deriving Repr

/-- `Resolver::new`. -/
def resolverNew : ResolverState :=
  ⟨[], [], .notAFunction, .notAClass⟩

/-- Replace the innermost scope (`scopes.last_mut()`); no-op when empty. -/
def setLastScope (scopes : List Scope) (s : Scope) : List Scope :=
  scopes.dropLast ++ [s]

/-- `Resolver::begin_scope`. -/
def beginScope (rs : ResolverState) : ResolverState :=
  { rs with scopes := rs.scopes ++ [[]] }

/-- `Resolver::end_scope`. -/
def endScope (rs : ResolverState) : ResolverState :=
  { rs with scopes := rs.scopes.dropLast }

/-- `Resolver::declare` (lines 325-336): error when the innermost scope
already holds the name, otherwise insert it as declared-but-undefined; a
no-op at global level (no scope). -/
def declare (rs : ResolverState) (name : Tok) : Except String ResolverState :=
  match rs.scopes.getLast? with
  | none => .ok rs
  | some scope =>
    if (scopeGet scope name.lexeme).isSome then
      .error (reportError name "Variable with this name already declared in this scope.")
    else
      .ok { rs with scopes := setLastScope rs.scopes (scopeInsert scope name.lexeme false) }

/-- `Resolver::define` (lines 338-342). -/
def rdefine (rs : ResolverState) (name : Tok) : ResolverState :=
  match rs.scopes.getLast? with
  | none => rs
  | some scope =>
    { rs with scopes := setLastScope rs.scopes (scopeInsert scope name.lexeme true) }

/-- `Resolver::resolve_local` (lines 352-361): when any scopes exist, iterate
`i` from the top index down to 0 and, at EVERY frame containing the name,
insert `depth = top_index - i` into the locals map.  The loop has no break,
so a later (outer) hit overwrites an earlier (inner) one and the final
recorded depth corresponds to the OUTERMOST frame containing the name. -/
def resolveLocal (rs : ResolverState) (name : Tok) : ResolverState :=
  if rs.scopes.length > 0 then
    let top := rs.scopes.length - 1
    ((List.range (top + 1)).reverse).foldl
      (fun acc i =>
        if (scopeGet (acc.scopes.getD i []) name.lexeme).isSome then
          { acc with locals := localsInsert acc.locals name (top - i) }
        else acc)
      rs
  else rs

/-- The parameter loop of `Resolver::resolve_function` and
`visit_lambda_expr`: declare then define each parameter in order. -/
def resolveParams (rs : ResolverState) (params : List Tok) :
    Except String ResolverState :=
  match params with
  | [] => .ok rs
  | p :: rest => do
    let rs1 ← declare rs p
    resolveParams (rdefine rs1 p) rest

/-- Resolver outcomes: a reported error string, or model fuel exhaustion. -/
inductive ResErr where
  | msg (s : String)
  | noFuelR
deriving DecidableEq, Repr

mutual
/-- `Resolver::resolve` over a statement list. -/
def resolveStmts (fuel : Nat) (rs : ResolverState) (stmts : List LStmt) :
    Except ResErr ResolverState :=
  match stmts with
  | [] => .ok rs
  | s :: rest =>
    match fuel with
    | 0 => .error .noFuelR
    | fuel + 1 => do
      let rs' ← resolveStmt fuel rs s
      resolveStmts fuel rs' rest

/-- `Resolver::visit_stmt` with the per-statement visitors inlined. -/
def resolveStmt (fuel : Nat) (rs : ResolverState) (s : LStmt) :
    Except ResErr ResolverState :=
  match fuel with
  | 0 => .error .noFuelR
  | fuel + 1 =>
    match s with
    | .block body => do
      let rs1 ← resolveStmts fuel (beginScope rs) body
      .ok (endScope rs1)
    | .varS name init => do
      let rs1 ← (declare rs name).mapError ResErr.msg
      let rs2 ←
        match init with
        | .lit .nothing => .ok rs1
        | _ => resolveExpr fuel rs1 init
      .ok (rdefine rs2 name)
    | .expression e => resolveExpr fuel rs e
    | .ifS cond thenB elseB => do
      let rs1 ← resolveExpr fuel rs cond
      let rs2 ← resolveStmt fuel rs1 thenB
      match elseB with
      | some b => resolveStmt fuel rs2 b
      | none => .ok rs2
    | .print e => resolveExpr fuel rs e
    | .ret keyword value =>
      if rs.currentFunction = .notAFunction then
        .error (.msg (reportError keyword "Cannot return from top-level code."))
      else if rs.currentFunction = .initFT then
        .error (.msg (reportError keyword "Cannot return a value from an initializer."))
      else
        match value with
        | .lit .nothing => .ok rs
        | _ => resolveExpr fuel rs value
    | .whileS cond body => do
      let rs1 ← resolveExpr fuel rs cond
      resolveStmt fuel rs1 body
    | .funDecl name params body => do
      let rs1 ← (declare rs name).mapError ResErr.msg
      resolveFunction fuel (rdefine rs1 name) params body .functionFT
    | .getter name body => do
      let rs1 ← (declare rs name).mapError ResErr.msg
      resolveFunction fuel (rdefine rs1 name) [] body .methodFT
    | .classS name methods superC => do
      let enclosing := rs.currentClass
      let rs0 := { rs with currentClass := .classCT }
      let rs1 ← (declare rs0 name).mapError ResErr.msg
      let rs2 := rdefine rs1 name
      let selfCheck : Except ResErr Unit :=
        match superC with
        | some (.varE superName) =>
          if superName.lexeme = name.lexeme then
            .error (.msg (reportError name "A class can't inherit from itself."))
          else .ok ()
        | _ => .ok ()
      match selfCheck with
      | .error e => .error e
      | .ok _ => do
        let rs3 ←
          match superC with
          | some e => resolveExpr fuel { rs2 with currentClass := .subClass } e
          | none => .ok rs2
        let rs4 :=
          match superC with
          | some _ =>
            let b := beginScope rs3
            { b with scopes := setLastScope b.scopes [("super", true)] }
          | none => rs3
        let rs5 :=
          let b := beginScope rs4
          { b with scopes := setLastScope b.scopes [("this", true)] }
        let rs6 ← resolveClassMethods fuel rs5 name methods
        let rs7 := endScope rs6
        let rs8 :=
          match superC with
          | some _ => endScope rs7
          | none => rs7
        .ok { rs8 with currentClass := enclosing }

/-- The method loop of `Resolver::visit_class_stmt` (lines 192-202).  Only
`Stmt::Function` members are resolved -- `Stmt::Getter` members fail the
`if let` and are skipped entirely -- and the function type is chosen by
comparing the CLASS's name token (`name.lexeme`; the method's own name is
discarded by the pattern `Stmt::Function(_, params, body)`) against
`"init"`. -/
def resolveClassMethods (fuel : Nat) (rs : ResolverState) (name : Tok)
    (methods : List LStmt) : Except ResErr ResolverState :=
  match methods with
  | [] => .ok rs
  | m :: rest =>
    match fuel with
    | 0 => .error .noFuelR
    | fuel + 1 =>
      match m with
      | .funDecl _ params body => do
        let declaration : FunctionType :=
          if name.lexeme = "init" then .initFT else .methodFT
        let rs' ← resolveFunction fuel rs params body declaration
        resolveClassMethods fuel rs' name rest
      | _ => resolveClassMethods fuel rs name rest

/-- `Resolver::visit_expr` with the per-expression visitors inlined. -/
def resolveExpr (fuel : Nat) (rs : ResolverState) (e : LExpr) :
    Except ResErr ResolverState :=
  match fuel with
  | 0 => .error .noFuelR
  | fuel + 1 =>
    match e with
    | .varE name =>
      match rs.scopes.getLast? with
      | some scope =>
        if scopeGet scope name.lexeme = some false then
          .error (.msg (reportError name "Cannot read local variable in its own initializer."))
        else .ok (resolveLocal rs name)
      | none => .ok (resolveLocal rs name)
    | .assign name value => do
      let rs1 ← resolveExpr fuel rs value
      .ok (resolveLocal rs1 name)
    | .binary lhs _ rhs => do
      let rs1 ← resolveExpr fuel rs lhs
      resolveExpr fuel rs1 rhs
    | .logical lhs _ rhs => do
      let rs1 ← resolveExpr fuel rs lhs
      resolveExpr fuel rs1 rhs
    | .ternary c t el => do
      let rs1 ← resolveExpr fuel rs c
      let rs2 ← resolveExpr fuel rs1 t
      resolveExpr fuel rs2 el
    | .grouping g => resolveExpr fuel rs g
    | .unary _ operand => resolveExpr fuel rs operand
    | .call callee _ args => do
      let rs1 ← resolveExpr fuel rs callee
      resolveExprs fuel rs1 args
    | .lambda params body => do
      let rs1 ← (resolveParams (beginScope rs) params).mapError ResErr.msg
      let rs2 ← resolveStmts fuel rs1 body
      .ok (endScope rs2)
    | .getE obj _ => resolveExpr fuel rs obj
    | .setE obj _ value => do
      let rs1 ← resolveExpr fuel rs value
      resolveExpr fuel rs1 obj
    | .thisE name =>
      if rs.currentClass = .notAClass then
        .error (.msg (reportError name "Cannot use 'this' outside of a class."))
      else .ok (resolveLocal rs name)
    | .superE keyword _ =>
      match rs.currentClass with
      | .classCT => .error (.msg (reportError keyword "Can't use 'super' in a class with no superclass."))
      | .notAClass => .error (.msg (reportError keyword "Can't use 'super' outside of a class."))
      | .subClass => .ok (resolveLocal rs keyword)
    | .lit _ => .ok rs

def resolveExprs (fuel : Nat) (rs : ResolverState) (es : List LExpr) :
    Except ResErr ResolverState :=
  match es with
  | [] => .ok rs
  | e :: rest =>
    match fuel with
    | 0 => .error .noFuelR
    | fuel + 1 => do
      let rs' ← resolveExpr fuel rs e
      resolveExprs fuel rs' rest

/-- `Resolver::resolve_function` (lines 363-381): remember the enclosing
function type, open a scope, declare and define the parameters, resolve the
body, close the scope and restore the function type. -/
def resolveFunction (fuel : Nat) (rs : ResolverState) (params : List Tok)
    (body : List LStmt) (typ : FunctionType) : Except ResErr ResolverState :=
  match fuel with
  | 0 => .error .noFuelR
  | fuel + 1 => do
    let enclosing := rs.currentFunction
    let rs1 ← (resolveParams (beginScope { rs with currentFunction := typ }) params).mapError ResErr.msg
    let rs2 ← resolveStmts fuel rs1 body
    .ok { endScope rs2 with currentFunction := enclosing }
end

/-- `Resolver::run`: resolve a program from the fresh state, yielding the
locals map. -/
def resolverRun (fuel : Nat) (program : List LStmt) :
    Except ResErr (List (Tok × Nat)) :=
  (resolveStmts fuel resolverNew program).map (fun rs => rs.locals)

/-- The lexer's token-in-progress category (`Kind` in
`src/lexer/scanner.rs`). -/
inductive Kind where
  | strK
  | numberK
  | comment
  | multiComment
  | identK
  | nothingK
deriving DecidableEq, Repr

/-- Scanner state (`Scanner`), minus the borrowed source text: the
characters are fed one at a time by `scanTokens`. -/
structure ScanState where
  tokens : List Tok
  currentToken : String
  currentKind : Kind
  currentTokenNumber : Nat
  line : Nat
  errors : List String
deriving Repr

/-- `Scanner::new`. -/
def scannerNew : ScanState := ⟨[], "", .nothingK, 0, 1, []⟩

/-- `valid_digit` (`scanner.rs` lines 243-245): `c.is_digit(10) || c == '.'`
— a dot is accepted inside a digit run. -/
def valid_digit (c : Char) : Bool := c.isDigit || c == '.'

/-- `valid_identifier` (`scanner.rs` lines 247-249):
`c.is_alphabetic() || c == '_'`.  Rust tests the Unicode Alphabetic
property; on the ASCII range — all the characters the theorems below feed
in — it agrees with `Char.isAlpha`. -/
def valid_identifier (c : Char) : Bool := c.isAlpha || c == '_'

/-- `Scanner::identifier_type` (lines 172-192): exact keyword lexemes,
otherwise an identifier. -/
def identifier_type (s : String) : TokType :=
  if s = "and" then .andKw
  else if s = "class" then .classKw
  else if s = "else" then .elseKw
  else if s = "false" then .falseKw
  else if s = "for" then .forKw
  else if s = "fun" then .funKw
  else if s = "if" then .ifKw
  else if s = "nil" then .nilKw
  else if s = "or" then .orKw
  else if s = "print" then .printKw
  else if s = "return" then .returnKw
  else if s = "super" then .superKw
  else if s = "this" then .thisKw
  else if s = "true" then .trueKw
  else if s = "var" then .varKw
  else if s = "while" then .whileKw
  else .identifier

/-- `Scanner::add_token`: emit the saved lexeme under the given type and
reset the in-progress token, bumping the sequence number. -/
def addToken (st : ScanState) (typ : TokType) : ScanState :=
  { st with
    tokens := st.tokens ++ [⟨typ, st.currentToken, st.line, st.currentTokenNumber⟩],
    currentToken := "",
    currentKind := .nothingK,
    currentTokenNumber := st.currentTokenNumber + 1 }

/-- `Scanner::add_error`. -/
def addErrorS (st : ScanState) (line : Nat) (message : String) : ScanState :=
  { st with errors := st.errors ++ [toString line ++ " " ++ message] }

/-- `Scanner::add_comment`: switch into (multi-)comment mode. -/
def addComment (st : ScanState) : ScanState :=
  if st.currentToken = "//" then
    { st with currentKind := .comment, currentToken := "" }
  else
    { st with currentKind := .multiComment, currentToken := "" }

/-- `Scanner::end_comment`. -/
def endComment (st : ScanState) : ScanState :=
  { st with currentKind := .nothingK, currentToken := "" }

/-- `Scanner::add_saved_token` (lines 131-159): flush the token in progress
(first match, on the kind; `Comment`, and a multi-line comment not yet at
`*/`, return early), then settle saved one/two-character operator text
against the incoming character (second match, on the lexeme). -/
def addSavedToken (st : ScanState) (c : Char) : ScanState :=
  let step1 : ScanState × Bool :=
    match st.currentKind with
    | .strK => (addErrorS st st.line "Unterminated string", false)
    | .numberK => (addToken st .number, false)
    | .identK => (addToken st (identifier_type st.currentToken), false)
    | .comment => (st, true)
    | .multiComment => if st.currentToken ≠ "*/" then (st, true) else (st, false)
    | .nothingK => (st, false)
  match step1 with
  | (st1, true) => st1
  | (st1, false) =>
    if st1.currentToken = "/" then
      if c ≠ '/' ∧ c ≠ '*' then addToken st1 .slash else st1
    else if st1.currentToken = "*" then
      if c ≠ '/' ∧ st1.currentKind ≠ .multiComment then addToken st1 .star
      else if c ≠ '/' ∧ st1.currentKind = .multiComment then
        { st1 with currentToken := "" }
      else st1
    else if st1.currentToken = "=" then
      if c ≠ '=' then addToken st1 .equal else st1
    else if st1.currentToken = "!" then
      if c ≠ '=' then addToken st1 .bang else st1
    else if st1.currentToken = "<" then
      if c ≠ '=' then addToken st1 .less else st1
    else if st1.currentToken = ">" then
      if c ≠ '=' then addToken st1 .greater else st1
    else if st1.currentToken = "!=" then addToken st1 .bangEqual
    else if st1.currentToken = "==" then addToken st1 .equalEqual
    else if st1.currentToken = "<=" then addToken st1 .lessEqual
    else if st1.currentToken = ">=" then addToken st1 .greaterEqual
    else if st1.currentToken = "//" then addComment st1
    else if st1.currentToken = "/*" then addComment st1
    else if st1.currentToken = "*/" then endComment st1
    else st1

/-- `Scanner::add_single_token`. -/
def addSingleToken (st : ScanState) (typ : TokType) (c : Char) : ScanState :=
  let st1 := addSavedToken st c
  addToken { st1 with currentToken := st1.currentToken.push c } typ

/-- `Scanner::add_multi_token`. -/
def addMultiToken (st : ScanState) (c : Char) : ScanState :=
  let st1 := addSavedToken st c
  { st1 with currentToken := st1.currentToken.push c }

/-- `Scanner::add_to_string`. -/
def addToString (st : ScanState) (c : Char) : ScanState :=
  if st.currentKind = .nothingK then { st with currentKind := .strK }
  else if c = '"' then addToken st .strTok
  else { st with currentToken := st.currentToken.push c }

/-- `Scanner::add_to_number` (the kind is only set when nothing was in
progress; the character is pushed regardless). -/
def addToNumber (st : ScanState) (c : Char) : ScanState :=
  let st1 := if st.currentKind = .nothingK then { st with currentKind := .numberK } else st
  { st1 with currentToken := st1.currentToken.push c }

/-- `Scanner::add_to_identifier` (same shape as `add_to_number`). -/
def addToIdentifier (st : ScanState) (c : Char) : ScanState :=
  let st1 := if st.currentKind = .nothingK then { st with currentKind := .identK } else st
  { st1 with currentToken := st1.currentToken.push c }

/-- `Scanner::new_line`. -/
def newLine (st : ScanState) : ScanState :=
  let st1 := { st with line := st.line + 1 }
  if st1.currentKind = .comment then { st1 with currentKind := .nothingK } else st1

/-- `Scanner::white_space`. -/
def whiteSpace (st : ScanState) (c : Char) : ScanState :=
  let st1 := if c = '\n' then newLine st else st
  addSavedToken st1 c

/-- `Scanner::multi_comment_end`. -/
def multiCommentEnd (st : ScanState) (c : Char) : Bool :=
  if st.currentToken = "*/" then true
  else if st.currentToken = "*" ∧ c = '/' then true
  else if c = '*' then true
  else false

/-- The second match of `Scanner::scan_token` (lines 63-89), dispatching on
the character itself. -/
def scanDispatch (st : ScanState) (c : Char) : ScanState :=
  if c = '(' then addSingleToken st .leftParen c
  else if c = ')' then addSingleToken st .rightParen c
  else if c = Char.ofNat 123 then addSingleToken st .leftBrace c
  else if c = Char.ofNat 125 then addSingleToken st .rightBrace c
  else if c = ',' then addSingleToken st .comma c
  else if c = '.' then addSingleToken st .dot c
  else if c = '-' then addSingleToken st .minus c
  else if c = '+' then addSingleToken st .plus c
  else if c = ';' then addSingleToken st .semiColon c
  else if c = '?' then addSingleToken st .questionMark c
  else if c = ':' then addSingleToken st .colon c
  else if c = '*' ∨ c = '!' ∨ c = '=' ∨ c = '<' ∨ c = '>' ∨ c = '/' then
    addMultiToken st c
  else if c = '\n' ∨ c = '\t' ∨ c = '\r' ∨ c = ' ' then whiteSpace st c
  else if c = '"' then addToString st c
  else if valid_digit c then addToNumber st c
  else if valid_identifier c then addToIdentifier st c
  else addErrorS st st.line "Unexpected character"

/-- `Scanner::scan_token` (lines 44-90): the first match keeps feeding a
token in progress (comment, string, digit run, identifier run); everything
else falls through to the character dispatch. -/
def scanToken (st : ScanState) (c : Char) : ScanState :=
  match st.currentKind with
  | .comment => if c ≠ '\n' then st else scanDispatch st c
  | .multiComment => if ¬ multiCommentEnd st c then st else scanDispatch st c
  | .strK => addToString st c
  | .numberK => if valid_digit c then addToNumber st c else scanDispatch st c
  | .identK => if valid_identifier c then addToIdentifier st c else scanDispatch st c
  | .nothingK => scanDispatch st c

/-- `Scanner::scan_tokens` (lines 35-42): feed every character, flush with a
NUL sentinel, then append the `Eof` token. -/
def scanTokens (source : List Char) : ScanState :=
  let st := source.foldl scanToken scannerNew
  let st1 := addSavedToken st (Char.ofNat 0)
  { st1 with tokens := st1.tokens ++ [⟨.eof, "", st1.line, st1.currentTokenNumber⟩] }

/-- The body assembly of `Parser::for_statement` (`src/parser/parser.rs`
lines 252-274), taken after the clauses and the body have been parsed:
`braced` is the case where the parser consumed `{` and read the block's
statements, `plain` is any other body statement.  When the body is a braced
block an increment expression is appended to the block; in the `plain`
branch the parsed increment is not used by the source at all.  The While
wrapping and the initializer block mirror lines 263-273. -/
inductive ForBody where
  | braced (stmts : List LStmt)
  | plain (s : LStmt)
deriving Repr

def for_statement_desugar (initializer : Option LStmt)
    (condition : Option LExpr) (increment : Option LExpr) (body : ForBody) :
    LStmt :=
  let bodyStmt : LStmt :=
    match body with
    | .braced block =>
      match increment with
      | some expr => .block (block ++ [.expression expr])
      | none => .block block
    | .plain s => s
  let whileStmt : LStmt :=
    match condition with
    | some expr => .whileS expr bodyStmt
    | none => .whileS (.lit (.bool true)) bodyStmt
  match initializer with
  | some stmt => .block [stmt, whileStmt]
  | none => whileStmt

/-! ## Spec-side definitions

These definitions follow the specification's words, for comparison against
the embedded source; they are deliberately separate from the translations
above. -/

/-- The spec's notion of depth: the number of frames between the use site's
(innermost) frame and the NEAREST enclosing frame containing the name
("the number of enclosing scopes between a variable's use and its
definition"); `none` when no frame contains it (a global). -/
def specNearestDepth (scopes : List Scope) (lexeme : String) : Option Nat :=
  match scopes.reverse.findIdx? (fun s => (scopeGet s lexeme).isSome) with
  | some i => some i
  | none => none

/-- `[A-Za-z_]`, the identifier start class of the spec's regex. -/
def specIsIdentStart (c : Char) : Bool := c.isAlpha || c == '_'

/-- `[A-Za-z0-9_]`, the identifier continuation class of the spec's regex. -/
def specIsIdentCont (c : Char) : Bool := c.isAlpha || c.isDigit || c == '_'

/-- Worker for `specIdentRuns`: scan left to right, carrying the reversed
characters of the run in progress (a character that ends a run can never
start one, since the start class is contained in the continuation class). -/
def specRunsAux : List Char → Option (List Char) → List String
  | [], none => []
  | [], some acc => [String.mk acc.reverse]
  | c :: cs, none =>
    if specIsIdentStart c then specRunsAux cs (some [c])
    else specRunsAux cs none
  | c :: cs, some acc =>
    if specIsIdentCont c then specRunsAux cs (some (c :: acc))
    else String.mk acc.reverse :: specRunsAux cs none

/-- The maximal character runs matching `[A-Za-z_][A-Za-z0-9_]*` in a
character stream: a run starts at a start-class character not already
swallowed by a previous run and extends greedily over the continuation
class. -/
def specIdentRuns (cs : List Char) : List String := specRunsAux cs none

/-- Whether a token type is an identifier-or-keyword token. -/
def isIdentOrKeyword : TokType → Bool
  | .identifier => true
  | .andKw => true
  | .classKw => true
  | .elseKw => true
  | .falseKw => true
  | .funKw => true
  | .forKw => true
  | .ifKw => true
  | .nilKw => true
  | .orKw => true
  | .printKw => true
  | .returnKw => true
  | .superKw => true
  | .thisKw => true
  | .trueKw => true
  | .varKw => true
  | .whileKw => true
  | _ => false

/-- The lexemes of the identifier-or-keyword tokens in a token list. -/
def identTokenLexemes (ts : List Tok) : List String :=
  (ts.filter (fun t => isIdentOrKeyword t.typ)).map (fun t => t.lexeme)

/-! ## Concrete inputs for the claim theorems -/

/-- The decimal digit characters. -/
def digitChars : List Char := ['0', '1', '2', '3', '4', '5', '6', '7', '8', '9']

/-- Tokens for the shadowing program `{ var x = 1; { var x = 2; x; } }`. -/
def xDecl1 : Tok := ⟨.identifier, "x", 1, 0⟩

def xDecl2 : Tok := ⟨.identifier, "x", 2, 1⟩

def xUse : Tok := ⟨.identifier, "x", 3, 2⟩

/-- `{ var x = 1; { var x = 2; x; } }`: the use of `x` sits where two
enclosing frames both bind `x`. -/
def shadowProg : List LStmt :=
  [.block [.varS xDecl1 (.lit (.num 1)),
           .block [.varS xDecl2 (.lit (.num 2)),
                   .expression (.varE xUse)]]]

/-- Tokens for the C3 programs. -/
def fooTok : Tok := ⟨.identifier, "Foo", 1, 0⟩

def initNameTok : Tok := ⟨.identifier, "init", 1, 1⟩

def retTok : Tok := ⟨.returnKw, "return", 1, 2⟩

/-- `class Foo { init() { return 5; } }`: a method literally named `init`
whose body returns a value. -/
def progFooInit : List LStmt :=
  [.classS fooTok [.funDecl initNameTok [] [.ret retTok (.lit (.num 5))]] none]

def initClsTok : Tok := ⟨.identifier, "init", 1, 0⟩

def mNameTok : Tok := ⟨.identifier, "m", 1, 1⟩

/-- `class init { m() { return 5; } }`: an ordinary method inside a class
whose NAME is `init`. -/
def progClassNamedInit : List LStmt :=
  [.classS initClsTok [.funDecl mNameTok [] [.ret retTok (.lit (.num 5))]] none]

def cNameTok : Tok := ⟨.identifier, "C", 1, 0⟩

def gNameTok : Tok := ⟨.identifier, "g", 1, 1⟩

def thisUseTok : Tok := ⟨.thisKw, "this", 1, 2⟩

/-- `class C { g { this; } }`: a getter member whose body uses `this`. -/
def progGetterThis : List LStmt :=
  [.classS cNameTok [.getter gNameTok [.expression (.thisE thisUseTok)]] none]

/-- `class C { g() { this; } }`: the same body as a `Stmt::Function` member,
for contrast. -/
def progMethodThis : List LStmt :=
  [.classS cNameTok [.funDecl gNameTok [] [.expression (.thisE thisUseTok)]] none]

/-- The token naming `x` in the C2 environment. -/
def xEnvTok : Tok := ⟨.identifier, "x", 1, 0⟩

/-- C4 fixture: `class C { area { return 16; } }` and an instance of it
bound to the global `c`. -/
def areaTok : Tok := ⟨.identifier, "area", 1, 5⟩

def cVarTok : Tok := ⟨.identifier, "c", 1, 6⟩

def c4GetterFun : FunctionV :=
  .mk 0 (some areaTok) [] [.ret ⟨.returnKw, "return", 1, 7⟩ (.lit (.num 16))] 0 false

def c4Class : ClassV :=
  ⟨"C", buildMethodTable 0 [.getter areaTok [.ret ⟨.returnKw, "return", 1, 7⟩ (.lit (.num 16))]] [], none⟩

def c4State : InterpState :=
  { envHeap := [⟨[("c", .instLit (.dynamic 0))], none⟩], objHeap := [⟨0, []⟩],
    clsHeap := [c4Class], globals := 0, environment := 0, inInit := false,
    locals := [], returnValue := .nothing, output := [] }

/-- C6 fixture: `class C { init(xp) { } }` and a one-parameter function,
both bound as globals. -/
def initT : Tok := ⟨.identifier, "init", 1, 0⟩

def xParam : Tok := ⟨.identifier, "xp", 1, 1⟩

def cNm : Tok := ⟨.identifier, "C", 1, 2⟩

def fNm : Tok := ⟨.identifier, "f", 1, 9⟩

def parenT : Tok := ⟨.rightParen, ")", 1, 3⟩

def c6Class : ClassV := ⟨"C", buildMethodTable 0 [.funDecl initT [xParam] []] [], none⟩

def c6State : InterpState :=
  { envHeap := [⟨[("C", .classLit c6Class),
                  ("f", .fnLit (.mk 1 none [xParam] [] 0 false))], none⟩],
    objHeap := [], clsHeap := [], globals := 0, environment := 0,
    inInit := false, locals := [], returnValue := .nothing, output := [] }

/-- C7 fixture: `class C { m() { this.f = true; } } var x = C(); x.m();`. -/
def c7cName : Tok := ⟨.identifier, "C", 1, 0⟩

def c7mName : Tok := ⟨.identifier, "m", 1, 1⟩

def c7this : Tok := ⟨.thisKw, "this", 1, 2⟩

def c7f : Tok := ⟨.identifier, "f", 1, 3⟩

def c7xVar : Tok := ⟨.identifier, "x", 2, 4⟩

def c7cRef : Tok := ⟨.identifier, "C", 2, 5⟩

def c7par1 : Tok := ⟨.rightParen, ")", 2, 6⟩

def c7xRef : Tok := ⟨.identifier, "x", 3, 7⟩

def c7mRef : Tok := ⟨.identifier, "m", 3, 8⟩

def c7par2 : Tok := ⟨.rightParen, ")", 3, 9⟩

def c7xRef2 : Tok := ⟨.identifier, "x", 4, 10⟩

def c7fRef : Tok := ⟨.identifier, "f", 4, 11⟩

/-- `class C { m() { this.f = true; } }` -/
def c7s1 : LStmt :=
  .classS c7cName
    [.funDecl c7mName [] [.expression (.setE (.thisE c7this) c7f (.lit (.bool true)))]]
    none

/-- `var x = C();` -/
def c7s2 : LStmt := .varS c7xVar (.call (.varE c7cRef) c7par1 [])

/-- `x.m();` -/
def c7s3 : LStmt := .expression (.call (.getE (.varE c7xRef) c7mRef) c7par2 [])

def c7Prog : List LStmt := [c7s1, c7s2, c7s3]

/-- The locals map the resolver produces for `c7Prog`: inside the method
body, `this` lives one frame out (past the call frame, in the binding
frame). -/
def c7Locals : List (Tok × Nat) := [(c7this, 1)]

def c7Final : InterpState := interpRun 20 (interpNew c7Locals) c7Prog

/-- The method runtime value of `m`, capturing the globals frame. -/
def c7mFun : FunctionV :=
  .mk 0 (some c7mName) [] [.expression (.setE (.thisE c7this) c7f (.lit (.bool true)))] 0 false

def c7ClassV : ClassV := ⟨"C", [("m", .fnLit c7mFun)], none⟩

def c7GlobFrame : EnvFrame :=
  ⟨[("C", .classLit c7ClassV), ("x", .instLit (.dynamic 0))], none⟩

/-- The interpreter state after `c7s1`. -/
def c7State1 : InterpState :=
  { envHeap := [⟨[("C", .classLit c7ClassV)], none⟩], objHeap := [], clsHeap := [],
    globals := 0, environment := 0, inInit := false, locals := c7Locals,
    returnValue := .nothing, output := [] }

/-- The state after `c7s2`: object 0 is the instance `x` refers to. -/
def c7State2 : InterpState :=
  { envHeap := [c7GlobFrame], objHeap := [⟨0, []⟩], clsHeap := [c7ClassV],
    globals := 0, environment := 0, inInit := false, locals := c7Locals,
    returnValue := .nothing, output := [] }

/-- The state after `c7s3`: the bound method wrote `f` into object 1 — the
clone made by `Object::get` — while object 0 kept its empty fields. -/
def c7State3 : InterpState :=
  { envHeap := [c7GlobFrame, ⟨[("this", .instLit (.dynamic 1))], some 0⟩,
                ⟨[], some 1⟩, ⟨[], some 1⟩],
    objHeap := [⟨0, []⟩, ⟨0, [("f", .bool true)]⟩], clsHeap := [c7ClassV],
    globals := 0, environment := 0, inInit := false, locals := c7Locals,
    returnValue := .nothing, output := [] }

/-- C8 fixture: three instances of the same class `D`; the objects at
addresses 0 and 1 are distinct allocations with identical (empty) field
maps, the one at address 2 differs in its fields. -/
def c8Class : ClassV := ⟨"D", [], none⟩

def c8State : InterpState :=
  { envHeap := [⟨[("a", .instLit (.dynamic 0)), ("b", .instLit (.dynamic 1)),
                  ("c", .instLit (.dynamic 2))], none⟩],
    objHeap := [⟨0, []⟩, ⟨0, []⟩, ⟨0, [("g", .num 1)]⟩], clsHeap := [c8Class],
    globals := 0, environment := 0, inInit := false, locals := [],
    returnValue := .nothing, output := [] }

def eqTok : Tok := ⟨.equalEqual, "==", 1, 20⟩

def aRef : Tok := ⟨.identifier, "a", 1, 21⟩

def bRef : Tok := ⟨.identifier, "b", 1, 22⟩

def cRef2 : Tok := ⟨.identifier, "c", 1, 23⟩

/-- C5 fixture: a print statement as the (non-block) for body and an
assignment-free increment expression. -/
def c5Inc : LExpr := .assign ⟨.identifier, "i", 1, 30⟩ (.lit (.num 1))

def c5Body : LStmt := .print (.varE ⟨.identifier, "i", 1, 31⟩)

/-! ## Helper lemmas -/

/-- Feeding a decimal digit to the scanner while an identifier is in
progress pushes the digit onto the identifier (the first-match guard fails,
and the dispatch lands on `add_to_number`, which leaves the kind alone). -/
theorem scanToken_identK_digit (d : Char) (hd : d ∈ digitChars)
    (toks : List Tok) (cur : String) (n ln : Nat) (errs : List String) :
    scanToken ⟨toks, cur, .identK, n, ln, errs⟩ d =
      ⟨toks, cur.push d, .identK, n, ln, errs⟩ := by
  fin_cases hd <;> rfl

/-- Scanning a run of digits from an identifier-in-progress appends them
all to the pending lexeme. -/
theorem foldl_scanToken_digits (ds : List Char) (hds : ∀ c ∈ ds, c ∈ digitChars) :
    ∀ (toks : List Tok) (cur : String) (n ln : Nat) (errs : List String),
      ds.foldl scanToken ⟨toks, cur, .identK, n, ln, errs⟩ =
        ⟨toks, cur ++ String.mk ds, .identK, n, ln, errs⟩ := by
  induction ds with
  | nil =>
    intro toks cur n ln errs
    simp
  | cons d ds ih =>
    intro toks cur n ln errs
    rw [List.foldl_cons, scanToken_identK_digit d (hds d (by simp))]
    rw [ih (fun c hc => hds c (List.mem_cons_of_mem _ hc))]
    congr 1
    simp [String.push, String.ext_iff]

/-- A letter followed only by digits is never a keyword lexeme. -/
theorem identifier_type_a_digits (ds : List Char)
    (hds : ∀ c ∈ ds, c ∈ digitChars) :
    identifier_type ("a" ++ String.mk ds) = .identifier := by
  cases ds with
  | nil => rfl
  | cons d ds =>
    have hd := hds d (by simp)
    unfold identifier_type
    fin_cases hd <;> simp [String.ext_iff, String.push, String.mk, *]

/-- `visit_block_stmt` puts the saved previous environment back into the
state on each of its exit paths. -/
theorem visitBlockStmt_restores_env (fuel : Nat) (st : InterpState)
    (stmts : List LStmt) (envOpt : Option EnvFrame) :
    ((visitBlockStmt fuel st stmts envOpt).1).environment = st.environment := by
  cases fuel with
  | zero => rfl
  | succ f =>
    unfold visitBlockStmt
    by_cases h : isNothingLit st.returnValue
    · simp only [h]
      split <;> rfl
    · simp [h]

/-- Executing the class declaration of the C7 program. -/
theorem c7_step1 : visitStmt 20 (interpNew c7Locals) c7s1 = (c7State1, .ok ()) := rfl

/-- Executing `var x = C();` from the state after the class declaration. -/
theorem c7_step2 : visitStmt 20 c7State1 c7s2 = (c7State2, .ok ()) := rfl

/-- Executing `x.m();`: the `this.f = true` write lands in object 1, the
clone, leaving object 0 untouched. -/
theorem c7_step3 : visitStmt 20 c7State2 c7s3 = (c7State3, .ok ()) := rfl

/-- The C7 program's final state, assembled from the three steps. -/
theorem c7Final_eq : c7Final = c7State3 := by
  simp only [c7Final, c7Prog, interpRun, c7_step1, c7_step2, c7_step3]

/-! ## Claim theorems -/

/-- C1: the claim says `resolve_local` records the depth of the NEAREST
enclosing frame containing the name.  The loop in
`Resolver::resolve_local` has no break, so with `x` bound in both frames of
`{ var x = 1; { var x = 2; x; } }` the recorded depth is 1 — the OUTERMOST
binding — while the spec's nearest-frame depth at the use site is 0.  The
first conjunct runs the whole resolver on the program, the second applies
`resolve_local` directly to the scope stack at the use site, the third
gives the spec's depth. -/
theorem c1_resolve_local_records_outermost :
    resolverRun 100 shadowProg = .ok [(xUse, 1)]
    ∧ (resolveLocal ⟨[[("x", true)], [("x", true)]], [], .notAFunction, .notAClass⟩ xUse).locals
        = [(xUse, 1)]
    ∧ specNearestDepth [[("x", true)], [("x", true)]] "x" = some 0 :=
  ⟨rfl, rfl, rfl⟩

/-- C2: the claim says `assign_at` at depth `d` writes the frame that
`get_at` at depth `d` reads, for every `d` including 0.  At depth 0 the
clone made by `Environment::ancestor` swallows the write: assigning `false`
over `x = true` at depth 0 succeeds, yet `get_at` at depth 0 still reads
`true`.  The final conjunct shows the same round trip at depth 1 does land
(the clone shares its parent pointer with the real chain). -/
theorem c2_assign_at_depth_zero_write_lost :
    (envAssignAt [⟨[("x", .bool true)], none⟩] 0 xEnvTok (.bool false) 0).2 = .ok ()
    ∧ (envGetAt (envAssignAt [⟨[("x", .bool true)], none⟩] 0 xEnvTok (.bool false) 0).1
        0 xEnvTok 0).2 = .ok (.bool true)
    ∧ (envGetAt (envAssignAt [⟨[("x", .bool true)], none⟩, ⟨[], some 0⟩] 1
        xEnvTok (.bool false) 1).1 1 xEnvTok 1).2 = .ok (.bool false) :=
  ⟨rfl, rfl, rfl⟩

/-- C3: the claim says a method is resolved as an initializer exactly when
the METHOD's name is `init`, and that getter bodies are resolved too.  The
code compares the CLASS name and skips getters: `class Foo { init() {
return 5; } }` resolves without the initializer error; `class init { m() {
return 5; } }` raises it; the getter body using `this` is skipped (empty
locals), while the same body as a `Stmt::Function` member is resolved
(`this` gets depth 1). -/
theorem c3_initializer_flag_uses_class_name :
    resolverRun 100 progFooInit = .ok []
    ∧ resolverRun 100 progClassNamedInit =
        .error (.msg "[line 1] Error at 'return': Cannot return a value from an initializer.")
    ∧ resolverRun 100 progGetterThis = .ok []
    ∧ resolverRun 100 progMethodThis = .ok [(thisUseTok, 1)] :=
  ⟨rfl, rfl, rfl, rfl⟩

/-- C4: the claim says a getter found in the method table is invoked and
its return value becomes the Get expression's value.  The method table of
`c4Class` does map `area` to a getter entry, but `Object::get` only binds
entries matching `Literal::Fun`, so evaluating `c.area` raises the
undefined-property runtime error instead. -/
theorem c4_getter_access_raises_undefined_property :
    lookupVal c4Class.methods "area" = some (.getLit c4GetterFun)
    ∧ (visitExpr 20 c4State (.getE (.varE cVarTok) areaTok)).2 =
        .error (.rt ⟨areaTok, "Undefined property 'area'."⟩) :=
  ⟨rfl, rfl⟩

/-- C5: the claim says that for a non-block for body the parser synthesizes
a block of the body followed by the increment.  The source only appends the
increment when the body is a braced block; for any other body statement the
increment is dropped on the floor: the desugared While body is just the
print statement, with the increment appearing nowhere.  The second conjunct
shows the braced case, where the increment is appended. -/
theorem c5_for_increment_dropped_for_plain_body :
    for_statement_desugar none none (some c5Inc) (.plain c5Body) =
      .whileS (.lit (.bool true)) c5Body
    ∧ for_statement_desugar none none (some c5Inc) (.braced [c5Body]) =
        .whileS (.lit (.bool true)) (.block [c5Body, .expression c5Inc]) :=
  ⟨rfl, rfl⟩

/-- C6: the claim says a call with the wrong number of arguments always
raises a runtime error, for class callees as for function callees.
`visit_call_expr` checks only function callees: calling `class C {
init(xp) { } }` with no arguments reaches `args[0]` in `Function::call`
and panics (index out of bounds), calling it with two arguments silently
ignores the extra one and succeeds, while the function callee of arity 1
called with no arguments raises the proper runtime error. -/
theorem c6_class_call_arity_unchecked :
    (visitExpr 20 c6State (.call (.varE cNm) parenT [])).2 =
      .error (.panicked "index out of bounds")
    ∧ (visitExpr 20 c6State (.call (.varE cNm) parenT [.lit (.num 1), .lit (.num 2)])).2 =
        .ok (.instLit (.dynamic 0))
    ∧ (visitExpr 20 c6State (.call (.varE fNm) parenT [])).2 =
        .error (.rt ⟨parenT, "Wrong number of arguments."⟩) :=
  ⟨rfl, rfl, rfl⟩

/-- C7: the claim says a field write through a bound method is visible on
the receiver afterwards.  `Object::get` binds the method to a fresh CLONE
of the object, so after `class C { m() { this.f = true; } } var x = C();
x.m();` the write landed in the clone (object 1) while `x`'s object
(object 0) still has no fields, and reading `x.f` raises the
undefined-property error instead of yielding `true`. -/
theorem c7_bound_method_mutates_clone_not_receiver :
    c7Final.objHeap = [⟨0, []⟩, ⟨0, [("f", .bool true)]⟩]
    ∧ (visitExpr 20 c7Final (.getE (.varE c7xRef2) c7fRef)).2 =
        .error (.rt ⟨c7fRef, "Undefined property 'f'."⟩) := by
  rw [c7Final_eq]
  exact ⟨rfl, rfl⟩

/-- C8 counterexample: the claim says two distinct instances of the same
class with identical field maps compare UNEQUAL.  The derived `PartialEq`
compares through the `Rc`, so `a == b` on the two distinct empty instances
of class `D` evaluates to `true`. -/
theorem c8_counterexample_distinct_instances_equal :
    (visitExpr 20 c8State (.binary (.varE aRef) eqTok (.varE bRef))).2 =
      .ok (.bool true) := rfl

/-- C8 (amended): `==` compares primitives structurally, and compares
functions, classes and instances structurally THROUGH their referenced
content (the derived `PartialEq` dereferences the `Rc`), so two distinct
instances of one class with identical field maps compare equal while
instances differing in a field compare unequal; values of different tags
compare unequal. -/
theorem c8_amended_equality_is_structural :
    (∀ n m : Rat,
      (visitExpr 2 c8State (.binary (.lit (.num n)) eqTok (.lit (.num m)))).2 =
        .ok (.bool (n == m)))
    ∧ (∀ s t : String,
      (visitExpr 2 c8State (.binary (.lit (.str s)) eqTok (.lit (.str t)))).2 =
        .ok (.bool (s == t)))
    ∧ (visitExpr 2 c8State (.binary (.lit .nothing) eqTok (.lit .nothing))).2 =
        .ok (.bool true)
    ∧ (visitExpr 2 c8State (.binary (.lit (.str "s")) eqTok (.lit (.num 1)))).2 =
        .ok (.bool false)
    ∧ (visitExpr 20 c8State (.binary (.varE aRef) eqTok (.varE bRef))).2 =
        .ok (.bool true)
    ∧ (visitExpr 20 c8State (.binary (.varE aRef) eqTok (.varE cRef2))).2 =
        .ok (.bool false) :=
  ⟨fun _ _ => rfl, fun _ _ => rfl, rfl, rfl, rfl, rfl⟩

/-- C9 counterexample: the claim says every maximal `[A-Za-z_][A-Za-z0-9_]*`
run yields exactly one identifier-or-keyword token.  The source `1a` holds
one such maximal run (`a`), but the scanner absorbs the letter into the
digit run and emits a single Number token with lexeme `1a` — no
identifier-or-keyword token at all. -/
theorem c9_counterexample_digit_letter_run :
    (scanTokens "1a".toList).tokens = [⟨.number, "1a", 1, 0⟩, ⟨.eof, "", 1, 1⟩]
    ∧ identTokenLexemes (scanTokens "1a".toList).tokens = []
    ∧ specIdentRuns "1a".toList = ["a"] :=
  ⟨rfl, rfl, rfl⟩

/-- C9 (amended): a maximal run that STARTS the token — a letter followed
by any digits, as in `a1` — is emitted as a single identifier token whose
lexeme is the whole run; but a run beginning inside a digit run is absorbed
into the Number token (see the counterexample), and the scanner accepts
Unicode-alphabetic characters rather than ASCII only. -/
theorem c9_amended_letter_digit_run_single_token (ds : List Char)
    (hds : ∀ c ∈ ds, c ∈ digitChars) :
    (scanTokens ('a' :: ds)).tokens =
      [⟨.identifier, "a" ++ String.mk ds, 1, 0⟩, ⟨.eof, "", 1, 1⟩] := by
  unfold scanTokens
  rw [List.foldl_cons]
  have h1 : scanToken scannerNew 'a' = ⟨[], "a", .identK, 0, 1, []⟩ := rfl
  rw [h1, foldl_scanToken_digits ds hds]
  simp [addSavedToken, addToken, identifier_type_a_digits ds hds]

/-- C9 witness: the amended theorem applied to the concrete source `a1`. -/
theorem c9_amended_witness :
    (scanTokens ('a' :: ['1'])).tokens =
      [⟨.identifier, "a" ++ String.mk ['1'], 1, 0⟩, ⟨.eof, "", 1, 1⟩] :=
  c9_amended_letter_digit_run_single_token ['1'] (by decide)

/-- C10: executing a Block statement leaves the interpreter's current
environment exactly as it was, on every exit path (normal completion, a
runtime error from an inner statement, and a pending return), for every
starting state and every statement list. -/
theorem c10_block_restores_environment (fuel : Nat) (st : InterpState)
    (stmts : List LStmt) :
    ((visitStmt fuel st (.block stmts)).1).environment = st.environment := by
  cases fuel with
  | zero => rfl
  | succ f => exact visitBlockStmt_restores_env f st stmts none

end Tlox
